import Mathlib

/-!
Verification of the College Resource Hub query/aggregation layer.

This file gives a shallow embedding of the server storage layer
(`server/storage.ts`, `server/routes.ts`) over the relational schema of
`shared/schema.ts`.  Database tables are modelled as Lean lists, SQL numeric
values as `Rat`/`Nat`, timestamps as `Nat` (milliseconds), and each storage
method as a pure function from a database state to a new state plus its
return value.  SQL `ORDER BY` is modelled by a stable insertion sort.
-/

namespace ResourceHub

/-- Row of the `users` table (`shared/schema.ts`). -/
structure User where
  id : String
  email : Option String
  firstName : Option String
  lastName : Option String
  profileImageUrl : Option String
  username : Option String
  fullName : Option String
  major : Option String
  createdAt : Nat
  updatedAt : Nat
deriving Repr, DecidableEq

/-- Row of the `resources` table (`shared/schema.ts`). -/
structure Resource where
  id : String
  title : String
  description : Option String
  subject : String
  semester : Option String
  fileType : String
  fileName : String
  fileSize : Nat
  filePath : String
  uploadedById : String
  downloadCount : Nat
  averageRating : Rat
  ratingCount : Nat
  isActive : Bool
  createdAt : Nat
  updatedAt : Nat
deriving Repr, DecidableEq

/-- Row of the `ratings` table; primary key is (resourceId, userId). -/
structure Rating where
  resourceId : String
  userId : String
  rating : Int
  review : Option String
  createdAt : Nat
  updatedAt : Nat
deriving Repr, DecidableEq

/-- Row of the `favorites` table; primary key is (userId, resourceId). -/
structure Favorite where
  userId : String
  resourceId : String
  createdAt : Nat
deriving Repr, DecidableEq

/-- The database state: the tables the verified claims touch. -/
structure DB where
  users : List User
  resources : List Resource
  ratings : List Rating
  favorites : List Favorite
deriving Repr, DecidableEq

/-- Payload of `insertResourceSchema` (plus the file metadata added by the route). -/
structure InsertResource where
  title : String
  description : Option String
  subject : String
  semester : Option String
  fileType : String
  fileName : String
  fileSize : Nat
  filePath : String
  uploadedById : String
deriving Repr, DecidableEq

/-- Payload of `insertRatingSchema`. -/
structure InsertRating where
  resourceId : String
  userId : String
  rating : Int
  review : Option String
deriving Repr, DecidableEq

/-- Payload of `insertFavoriteSchema`. -/
structure InsertFavorite where
  userId : String
  resourceId : String
deriving Repr, DecidableEq

/-- Predicate for `WHERE ratings.resource_id = rid`. -/
def byResourceId (rid : String) (rt : Rating) : Bool :=
  rt.resourceId == rid

/-- Predicate for the composite rating key `(resourceId, userId)`. -/
def ratingPair (rid uid : String) (rt : Rating) : Bool :=
  rt.resourceId == rid && rt.userId == uid

/-- `DatabaseStorage.getRatingsForResource`. -/
def getRatingsForResource (db : DB) (rid : String) : List Rating :=
  db.ratings.filter (byResourceId rid)

/-- The `AVG`/`COUNT` aggregate computed by the `SELECT` of
`updateResourceRatingStats`: `AVG` of an empty set is SQL `NULL`, which the
code replaces by `"0"` (`stats.avgRating ? stats.avgRating.toString() : "0"`). -/
def ratingStatsOf (l : List Rating) (rid : String) : Rat × Nat :=
  let rs := l.filter (byResourceId rid)
  (if rs.length = 0 then 0 else ((rs.map (fun rt => (rt.rating : Rat))).sum) / (rs.length : Rat),
   rs.length)

/-- Storing a value into the `decimal(precision 3, scale 2)` column
`resources.average_rating`: Postgres rounds the NUMERIC to two decimal places,
half away from zero.  Precision 3 additionally makes magnitudes of 10 and
above a `numeric field overflow` error; that error path is not modelled here —
the invariant theorem below restricts rating scores to the 1–5 range the
schema documents (`// 1-5 stars`), under which every mean fits the column. -/
def pgRound2 (q : Rat) : Rat :=
  if q < 0 then -(((round (-(q * 100)) : Int) : Rat) / 100)
  else ((round (q * 100) : Int) : Rat) / 100

/-- `DatabaseStorage.updateResourceRatingStats`: recompute the aggregate over
the `ratings` table and write it onto the matching `resources` row; the
`UPDATE` stores the mean into the `decimal(3,2)` column, which quantizes it to
two decimal places (`pgRound2`). -/
def updateResourceRatingStats (db : DB) (rid : String) (now : Nat) : DB :=
  let stats := ratingStatsOf db.ratings rid
  { db with resources := db.resources.map (fun r =>
      if r.id == rid then
        { r with averageRating := pgRound2 stats.1, ratingCount := stats.2, updatedAt := now }
      else r) }

/-- A freshly inserted `ratings` row. -/
def mkRating (ir : InsertRating) (now : Nat) : Rating :=
  { resourceId := ir.resourceId, userId := ir.userId, rating := ir.rating,
    review := ir.review, createdAt := now, updatedAt := now }

/-- The `ON CONFLICT DO UPDATE SET` clause of `createOrUpdateRating`: overwrite
`rating`, `review` and `updatedAt` of the conflicting row in place. -/
def overwriteRating (old : Rating) (ir : InsertRating) (now : Nat) : Rating :=
  { old with rating := ir.rating, review := ir.review, updatedAt := now }

/-- `DatabaseStorage.createOrUpdateRating`: insert, or on conflict of the
`(resourceId, userId)` key overwrite `rating`, `review` and `updatedAt`
in place; then synchronously refresh the resource aggregate. -/
def createOrUpdateRating (db : DB) (ir : InsertRating) (now : Nat) : DB × Rating :=
  match db.ratings.find? (ratingPair ir.resourceId ir.userId) with
  | some old =>
      let updated : Rating := overwriteRating old ir now
      let db1 : DB :=
        { db with ratings := db.ratings.map (fun rt =>
            if ratingPair ir.resourceId ir.userId rt then updated else rt) }
      (updateResourceRatingStats db1 ir.resourceId now, updated)
  | none =>
      let db1 : DB := { db with ratings := db.ratings ++ [mkRating ir now] }
      (updateResourceRatingStats db1 ir.resourceId now, mkRating ir now)

/-- `DatabaseStorage.deleteRating`: delete the row for the pair if present and
refresh the aggregate only when a row was actually removed. -/
def deleteRating (db : DB) (rid uid : String) (now : Nat) : DB × Bool :=
  let remaining := db.ratings.filter (fun rt => !(ratingPair rid uid rt))
  if remaining.length < db.ratings.length then
    (updateResourceRatingStats { db with ratings := remaining } rid now, true)
  else
    (db, false)

/-- A freshly created `resources` row (`DatabaseStorage.createResource` with the
schema defaults: downloadCount 0, averageRating "0", ratingCount 0, isActive true). -/
def mkResource (ir : InsertResource) (newId : String) (now : Nat) : Resource :=
  { id := newId, title := ir.title, description := ir.description, subject := ir.subject,
    semester := ir.semester, fileType := ir.fileType, fileName := ir.fileName,
    fileSize := ir.fileSize, filePath := ir.filePath, uploadedById := ir.uploadedById,
    downloadCount := 0, averageRating := 0, ratingCount := 0, isActive := true,
    createdAt := now, updatedAt := now }

/-- `DatabaseStorage.createResource` (the fresh primary key is an argument). -/
def createResource (db : DB) (ir : InsertResource) (newId : String) (now : Nat) :
    DB × Resource :=
  ({ db with resources := db.resources ++ [mkResource ir newId now] },
   mkResource ir newId now)

/-- One API-level rating mutation: an upsert or a delete. -/
inductive RatingOp where
  | upsert (ir : InsertRating) (now : Nat)
  | remove (rid uid : String) (now : Nat)
deriving Repr

/-- Apply one rating mutation to the database state. -/
def applyRatingOp (db : DB) : RatingOp → DB
  | .upsert ir now => (createOrUpdateRating db ir now).1
  | .remove rid uid now => (deleteRating db rid uid now).1

/-- Apply a sequence of rating mutations. -/
def applyRatingOps (db : DB) (ops : List RatingOp) : DB :=
  ops.foldl applyRatingOp db

/-- A rating mutation whose score stays in the 1–5 range the schema documents
(the range within which the stored mean always fits the `decimal(3,2)`
column); deletes carry no score. -/
def RatingOp.validScore : RatingOp → Bool
  | .upsert ir _ => decide (1 ≤ ir.rating) && decide (ir.rating ≤ 5)
  | .remove _ _ _ => true

/-- The rating-aggregate invariant as the program actually maintains it: every
resource row carries the exact count of its `ratings` rows, and the mean of
their scores quantized to the two-decimal scale of the `decimal(3,2)` column. -/
def ratingAggConsistent (db : DB) : Prop :=
  ∀ r ∈ db.resources,
    r.averageRating = pgRound2 (ratingStatsOf db.ratings r.id).1 ∧
    r.ratingCount = (ratingStatsOf db.ratings r.id).2

/-- Insert an element into a list sorted by the boolean relation `le`. -/
def insertLE {α : Type} (le : α → α → Bool) (a : α) : List α → List α
  | [] => [a]
  | b :: l => if le a b then a :: b :: l else b :: insertLE le a l

/-- Stable insertion sort by the boolean relation `le`; models SQL `ORDER BY`. -/
def sortLE {α : Type} (le : α → α → Bool) : List α → List α
  | [] => []
  | a :: l => insertLE le a (sortLE le l)

/-- The `sortBy` values accepted by `getResources`. -/
inductive SortBy where
  | newest
  | oldest
  | rating
  | downloads
  | relevance
deriving Repr, DecidableEq

/-- Options object of `DatabaseStorage.getResources`; `none` models a field left
`undefined` by the caller. -/
structure GetResourcesOptions where
  limit : Option Nat
  offset : Option Nat
  subject : Option String
  semester : Option String
  minRating : Option Rat
  search : Option String
  sortBy : Option SortBy
  userId : Option String
deriving Repr, DecidableEq

/-- Case-insensitive substring test, modelling `ILIKE '%q%'`. -/
def containsCI (s q : String) : Bool :=
  decide (List.IsInfix (q.toList.map Char.toLower) (s.toList.map Char.toLower))

/-- The conjunction of `WHERE` conditions assembled by `getResources`.  Each
optional filter is guarded by JavaScript truthiness (`if (subject) ...`),
so an empty string — and a zero `minRating` — leaves the condition out. -/
def matchesResourceFilters (opts : GetResourcesOptions) (r : Resource) : Bool :=
  (r.isActive == true) &&
  (match opts.subject with
   | some s => s == "" || r.subject == s
   | none => true) &&
  (match opts.semester with
   | some s => s == "" || (match r.semester with | some v => v == s | none => false)
   | none => true) &&
  (match opts.minRating with
   | some m => m == 0 || decide (m ≤ r.averageRating)
   | none => true) &&
  (match opts.search with
   | some q => q == "" ||
       (containsCI r.title q ||
        (match r.description with | some d => containsCI d q | none => false))
   | none => true) &&
  (match opts.userId with
   | some u => u == "" || r.uploadedById == u
   | none => true)

/-- The `ORDER BY` clause chosen by `getResources`; `relevance` and any other
value fall through to the `newest` default of the `switch`. -/
def resourceLE (mode : SortBy) (a b : Resource) : Bool :=
  match mode with
  | .oldest => decide (a.createdAt ≤ b.createdAt)
  | .rating => decide (b.averageRating ≤ a.averageRating)
  | .downloads => decide (b.downloadCount ≤ a.downloadCount)
  | .newest => decide (b.createdAt ≤ a.createdAt)
  | .relevance => decide (b.createdAt ≤ a.createdAt)

/-- `DatabaseStorage.getResources`: filter active rows through the optional
conditions, sort, then apply `OFFSET` and `LIMIT` (defaults 0 and 50). -/
def getResources (db : DB) (opts : GetResourcesOptions) : List Resource :=
  ((sortLE (resourceLE (opts.sortBy.getD SortBy.newest))
      (db.resources.filter (matchesResourceFilters opts))).drop
    (opts.offset.getD 0)).take (opts.limit.getD 50)

/-- Result shape of `DatabaseStorage.getResourceWithDetails`. -/
structure ResourceWithDetails where
  resource : Resource
  ratings : List Rating
  averageRating : Rat
  ratingCount : Nat
deriving Repr, DecidableEq

/-- `DatabaseStorage.getResourceWithDetails`: single-row lookup by id with no
`isActive` filter; returns `none` only when no row has the id. -/
def getResourceWithDetails (db : DB) (id : String) : Option ResourceWithDetails :=
  match db.resources.find? (fun r => r.id == id) with
  | none => none
  | some r =>
      some { resource := r, ratings := db.ratings.filter (byResourceId id),
             averageRating := r.averageRating, ratingCount := r.ratingCount }

/-- `DatabaseStorage.getResource`: plain single-row lookup by id. -/
def getResource (db : DB) (id : String) : Option Resource :=
  db.resources.find? (fun r => r.id == id)

/-- Body fields the PUT route forwards to `updateResource`; `none` models a
field the request body leaves `undefined` (dropped from the `SET` clause). -/
structure ResourceBodyUpdates where
  title : Option String
  description : Option (Option String)
  subject : Option String
  semester : Option (Option String)
deriving Repr, DecidableEq

/-- Apply the `SET` clause of `DatabaseStorage.updateResource` to one row. -/
def applyResourceUpdates (u : ResourceBodyUpdates) (now : Nat) (r : Resource) : Resource :=
  { r with title := u.title.getD r.title,
           description := u.description.getD r.description,
           subject := u.subject.getD r.subject,
           semester := u.semester.getD r.semester,
           updatedAt := now }

/-- `DatabaseStorage.updateResource`: update all rows matching the id and
return the updated row (`undefined` when nothing matched). -/
def updateResource (db : DB) (id : String) (u : ResourceBodyUpdates) (now : Nat) :
    DB × Option Resource :=
  let updatedResources := db.resources.map (fun r =>
    if r.id == id then applyResourceUpdates u now r else r)
  ({ db with resources := updatedResources },
   (updatedResources.filter (fun r => r.id == id)).head?)

/-- `DatabaseStorage.deleteResource`: soft delete — set `isActive` to false and
report whether any row was matched. -/
def deleteResource (db : DB) (id : String) (now : Nat) : DB × Bool :=
  ({ db with resources := db.resources.map (fun r =>
      if r.id == id then { r with isActive := false, updatedAt := now } else r) },
   0 < (db.resources.filter (fun r => r.id == id)).length)

/-- `DatabaseStorage.incrementDownloadCount`. -/
def incrementDownloadCount (db : DB) (id : String) (now : Nat) : DB :=
  { db with resources := db.resources.map (fun r =>
      if r.id == id then { r with downloadCount := r.downloadCount + 1, updatedAt := now }
      else r) }

/-- The `PUT /api/resources/:id` handler (`server/routes.ts`): 404 when the id
is unknown, 403 when the caller is not the uploader, otherwise update and 200. -/
def putResourceRoute (db : DB) (userId id : String) (body : ResourceBodyUpdates)
    (now : Nat) : DB × Nat :=
  match db.resources.find? (fun r => r.id == id) with
  | none => (db, 404)
  | some existing =>
      if existing.uploadedById == userId then
        ((updateResource db id body now).1, 200)
      else
        (db, 403)

/-- The `DELETE /api/resources/:id` handler: 404 / 403 guards as for PUT, then
soft delete; 200 on success, 500 when the storage call reports no row. -/
def deleteResourceRoute (db : DB) (userId id : String) (now : Nat) : DB × Nat :=
  match db.resources.find? (fun r => r.id == id) with
  | none => (db, 404)
  | some existing =>
      if existing.uploadedById == userId then
        let result := deleteResource db id now
        (result.1, if result.2 then 200 else 500)
      else
        (db, 403)

/-- The `POST /api/resources/:id/download` handler: 404 when the id is unknown,
otherwise increment the counter and 200. -/
def downloadRoute (db : DB) (id : String) (now : Nat) : DB × Nat :=
  match db.resources.find? (fun r => r.id == id) with
  | none => (db, 404)
  | some _ => (incrementDownloadCount db id now, 200)

/-- A freshly inserted `favorites` row. -/
def mkFavorite (ins : InsertFavorite) (now : Nat) : Favorite :=
  { userId := ins.userId, resourceId := ins.resourceId, createdAt := now }

/-- `DatabaseStorage.addFavorite`: `INSERT ... ON CONFLICT DO NOTHING RETURNING`;
on a key conflict nothing is inserted and `returning()` yields no row, so the
destructured result is `undefined` (modelled as `none`). -/
def addFavorite (db : DB) (ins : InsertFavorite) (now : Nat) : DB × Option Favorite :=
  if db.favorites.any (fun f => f.userId == ins.userId && f.resourceId == ins.resourceId) then
    (db, none)
  else
    ({ db with favorites := db.favorites ++ [mkFavorite ins now] },
     some (mkFavorite ins now))

/-- Result shape of `DatabaseStorage.getDashboardStats`. -/
structure DashboardStats where
  totalResources : Nat
  totalDownloads : Nat
  averageRating : Rat
  activeUsers : Nat
deriving Repr, DecidableEq

/-- `DatabaseStorage.getDashboardStats`: aggregate folds over active resources;
`SUM`/`AVG` of the empty set are SQL `NULL`, mapped to 0 by `|| 0`. -/
def getDashboardStats (db : DB) : DashboardStats :=
  let act := db.resources.filter (fun r => r.isActive)
  { totalResources := act.length,
    totalDownloads := (act.map (fun r => r.downloadCount)).sum,
    averageRating :=
      if act.length = 0 then 0
      else ((act.map (fun r => r.averageRating)).sum) / (act.length : Rat),
    activeUsers := ((act.map (fun r => r.uploadedById)).dedup).length }

/-- Result shape of `DatabaseStorage.getUserStats`. -/
structure UserStats where
  uploadedCount : Nat
  totalDownloads : Nat
  averageRating : Rat
deriving Repr, DecidableEq

/-- `DatabaseStorage.getUserStats`: the dashboard folds scoped to one uploader's
active resources. -/
def getUserStats (db : DB) (userId : String) : UserStats :=
  let mine := db.resources.filter (fun r => r.uploadedById == userId && r.isActive)
  { uploadedCount := mine.length,
    totalDownloads := (mine.map (fun r => r.downloadCount)).sum,
    averageRating :=
      if mine.length = 0 then 0
      else ((mine.map (fun r => r.averageRating)).sum) / (mine.length : Rat) }

/-- One row of the `getTopContributors` grouped query. -/
structure ContributorRow where
  id : String
  username : Option String
  firstName : Option String
  lastName : Option String
  resourceCount : Nat
  totalDownloads : Nat
  averageRating : Rat
  joinedAt : Nat
deriving Repr, DecidableEq

/-- The active resources of one uploader: the rows its `LEFT JOIN` group
collects in `getTopContributors`. -/
def contributorResources (db : DB) (uid : String) : List Resource :=
  db.resources.filter (fun r => r.uploadedById == uid && r.isActive)

/-- The `LEFT JOIN ... GROUP BY users.id` row for one user: count, download sum
and rating mean over that user's active resources (`COALESCE(..., 0)` on the
empty group). -/
def contributorRow (db : DB) (u : User) : ContributorRow :=
  { id := u.id, username := u.username, firstName := u.firstName, lastName := u.lastName,
    resourceCount := (contributorResources db u.id).length,
    totalDownloads := ((contributorResources db u.id).map (fun r => r.downloadCount)).sum,
    averageRating :=
      if (contributorResources db u.id).length = 0 then 0
      else ((contributorResources db u.id).map (fun r => r.averageRating)).sum /
        ((contributorResources db u.id).length : Rat),
    joinedAt := u.createdAt }

/-- The three-level descending `ORDER BY` of `getTopContributors`:
resource count, then summed downloads, then mean rating. -/
def contribGE (a b : ContributorRow) : Bool :=
  decide (b.resourceCount < a.resourceCount) ||
  (a.resourceCount == b.resourceCount &&
    (decide (b.totalDownloads < a.totalDownloads) ||
     (a.totalDownloads == b.totalDownloads &&
      decide (b.averageRating ≤ a.averageRating))))

/-- JavaScript string truthiness: `s || undefined` maps the empty string to
`undefined`. -/
def jsTruthyStr : Option String → Option String
  | some s => if s = "" then none else some s
  | none => none

/-- The display `map` callback of `getTopContributors`.  Its `averageRating`
line is `Number((contributor.averageRating || 0).toFixed(2))`, but the
`COALESCE(AVG(...), 0)` aggregate is a raw `sql` fragment that the pg driver
delivers to JavaScript as a NUMERIC *string* (the code reads the same decimal
type with `parseFloat` in `getResourceWithDetails` and
`getTrendingResources`); the nonempty string is truthy and `.toFixed` is not
a string method, so the callback raises a `TypeError` instead of producing a
row.  Modelled as `Except`, always the error. -/
def displayContributor (_c : ContributorRow) : Except Unit ContributorRow :=
  Except.error ()

/-- `DatabaseStorage.getTopContributors`: group, sort by the three-level key,
drop zero-resource users, then format each row for display — all inside the
method's `try`.  The display map throws on the first row it processes (see
`displayContributor`), and the `catch` block logs and returns `[]`. -/
def getTopContributors (db : DB) : List ContributorRow :=
  match ((sortLE contribGE (db.users.map (contributorRow db))).filter
      (fun c => decide (0 < c.resourceCount))).mapM displayContributor with
  | Except.ok rows => rows
  | Except.error _ => []

/-- The trending timeframe selector. -/
inductive Timeframe where
  | week
  | month
  | all
deriving Repr, DecidableEq

/-- Lower bound of the trending window: `now` minus 7 or 30 days in
milliseconds, or the epoch for `all`. -/
def trendingDateFilter (tf : Timeframe) (now : Nat) : Nat :=
  match tf with
  | .week => now - 7 * 24 * 60 * 60 * 1000
  | .month => now - 30 * 24 * 60 * 60 * 1000
  | .all => 0

/-- The raw trending score `downloadCount * 0.4 + averageRating * ratingCount * 0.6`. -/
def rawTrendingScore (r : Resource) : Rat :=
  (r.downloadCount : Rat) * (4 / 10) + r.averageRating * (r.ratingCount : Rat) * (6 / 10)

/-- One element of the `getTrendingResources` response. -/
structure TrendingEntry where
  id : String
  title : String
  description : String
  subject : String
  fileType : String
  downloadCount : Nat
  averageRating : Rat
  ratingCount : Nat
  uploadedAt : Nat
  uploaderUsername : String
  uploaderFirstName : Option String
  uploaderLastName : Option String
  trendingScore : Int
  growthRate : Nat
deriving Repr, DecidableEq

/-- Format one joined row for the trending response; `g` is the growth-rate
placeholder (see `getTrendingResources`). -/
def mkTrendingEntry (r : Resource) (u : User) (g : Nat) : TrendingEntry :=
  { id := r.id, title := r.title, description := r.description.getD "",
    subject := r.subject, fileType := r.fileType, downloadCount := r.downloadCount,
    averageRating := r.averageRating, ratingCount := r.ratingCount,
    uploadedAt := r.createdAt,
    uploaderUsername := (jsTruthyStr u.username).getD "Unknown",
    uploaderFirstName := jsTruthyStr u.firstName,
    uploaderLastName := jsTruthyStr u.lastName,
    trendingScore := min 100 ⌊rawTrendingScore r⌋,
    growthRate := g }

/-- The raw score recomputed from a response entry (its download, rating and
count fields are copied verbatim from the resource row). -/
def entryRawScore (e : TrendingEntry) : Rat :=
  (e.downloadCount : Rat) * (4 / 10) + e.averageRating * (e.ratingCount : Rat) * (6 / 10)

/-- `DatabaseStorage.getTrendingResources`: active resources created inside the
window, inner-joined with their uploader, sorted by descending raw score,
first 10 formatted for display.  The code draws `growthRate` from
`Math.random()` per row; that draw is modelled by the oracle `rand`
(`Math.floor(Math.random() * 50) + 20` becomes `rand r.id % 50 + 20`). -/
def getTrendingResources (db : DB) (tf : Timeframe) (now : Nat) (rand : String → Nat) :
    List TrendingEntry :=
  let df := trendingDateFilter tf now
  let rows := db.resources.filterMap (fun r =>
    if r.isActive && decide (df ≤ r.createdAt) then
      (db.users.find? (fun u => u.id == r.uploadedById)).map (fun u => (r, u))
    else none)
  ((sortLE (fun a b => decide (rawTrendingScore b.1 ≤ rawTrendingScore a.1)) rows).take 10).map
    (fun p => mkTrendingEntry p.1 p.2 (rand p.1.id % 50 + 20))

/-- The empty database. -/
def emptyDB : DB := { users := [], resources := [], ratings := [], favorites := [] }

/-- Fixture user. -/
def uAlice : User :=
  { id := "u1", email := some "alice@campus.edu", firstName := some "Alice",
    lastName := some "A", profileImageUrl := none, username := some "alice",
    fullName := none, major := some "CS", createdAt := 100, updatedAt := 100 }

/-- Fixture user. -/
def uBob : User :=
  { id := "u2", email := some "bob@campus.edu", firstName := some "Bob",
    lastName := none, profileImageUrl := none, username := some "bob",
    fullName := none, major := none, createdAt := 200, updatedAt := 200 }

/-- Fixture resource builder. -/
def mkRes (id uploader subject : String) (dl : Nat) (avg : Rat) (cnt : Nat)
    (created : Nat) (active : Bool) : Resource :=
  { id := id, title := "Notes", description := some "course notes", subject := subject,
    semester := some "Fall", fileType := "application/pdf", fileName := "notes.pdf",
    fileSize := 1024, filePath := "/uploads/notes.pdf", uploadedById := uploader,
    downloadCount := dl, averageRating := avg, ratingCount := cnt, isActive := active,
    createdAt := created, updatedAt := created }

/-- Fixture insert payload for a resource. -/
def sampleInsertResource : InsertResource :=
  { title := "Calculus Notes", description := some "week 1", subject := "Math",
    semester := some "Fall", fileType := "application/pdf", fileName := "calc.pdf",
    fileSize := 2048, filePath := "/uploads/u1/calc.pdf", uploadedById := "u1" }

/-- Fixture rating-mutation sequence used by the invariant witness. -/
def sampleRatingOps : List RatingOp :=
  [RatingOp.upsert { resourceId := "r1", userId := "u2", rating := 4, review := none } 10,
   RatingOp.upsert { resourceId := "r1", userId := "u3", rating := 5, review := some "great" } 11,
   RatingOp.upsert { resourceId := "r1", userId := "u2", rating := 2, review := none } 12,
   RatingOp.remove "r1" "u3" 13]

/-- Three distinct users rate the fresh resource 1, 1 and 2: the mean is 4/3,
which the `decimal(3,2)` column stores as 1.33. -/
def thirdsRatingOps : List RatingOp :=
  [RatingOp.upsert { resourceId := "r1", userId := "u2", rating := 1, review := none } 10,
   RatingOp.upsert { resourceId := "r1", userId := "u3", rating := 1, review := none } 11,
   RatingOp.upsert { resourceId := "r1", userId := "u4", rating := 2, review := none } 12]

/-- The state reached by creating a resource and applying `thirdsRatingOps`. -/
def thirdsFinalDB : DB :=
  applyRatingOps (createResource emptyDB sampleInsertResource "r1" 5).1 thirdsRatingOps

/-- Options object with no filter supplied, used by list-operation examples. -/
def noOptions : GetResourcesOptions :=
  { limit := none, offset := none, subject := none, semester := none,
    minRating := none, search := none, sortBy := none, userId := none }

/-- Options object supplying the empty string as subject filter. -/
def emptySubjectOptions : GetResourcesOptions :=
  { noOptions with subject := some "" }

/-- Single-resource database used by list-operation examples. -/
def mathDB : DB :=
  { users := [uAlice], resources := [mkRes "r1" "u1" "Math" 3 0 0 5 true],
    ratings := [], favorites := [] }

/-- Database in which one uploader has three active resources with stored
average ratings 1, 1 and 2 (mean 4/3). -/
def thirdsDB : DB :=
  { users := [uAlice],
    resources := [mkRes "ra" "u1" "Math" 0 1 1 1 true,
                  mkRes "rb" "u1" "Math" 0 1 1 2 true,
                  mkRes "rc" "u1" "Math" 0 2 1 3 true],
    ratings := [], favorites := [] }

/-- The trending entry produced for the `mathDB` resource with a constant-zero
randomness oracle. -/
def sampleTrendingEntry : TrendingEntry :=
  mkTrendingEntry (mkRes "r1" "u1" "Math" 3 0 0 5 true) uAlice 20

/-- Database holding one favorite, for the conflict example. -/
def favDB : DB :=
  { emptyDB with favorites := [mkFavorite { userId := "u1", resourceId := "r1" } 3] }

end ResourceHub

namespace ResourceHub

theorem mem_insertLE {α : Type} (le : α → α → Bool) (a x : α) (l : List α) :
    x ∈ insertLE le a l ↔ x = a ∨ x ∈ l := by
  induction l with
  | nil => simp [insertLE]
  | cons b l ih =>
    by_cases hab : le a b
    · simp [insertLE, hab]
    · simp only [insertLE, hab, Bool.false_eq_true, if_false, ite_false, List.mem_cons, ih]
      tauto

theorem mem_sortLE {α : Type} (le : α → α → Bool) (x : α) (l : List α) :
    x ∈ sortLE le l ↔ x ∈ l := by
  induction l with
  | nil => simp [sortLE]
  | cons a l ih => simp [sortLE, mem_insertLE, ih]

theorem pairwise_insertLE {α : Type} {le : α → α → Bool}
    (htot : ∀ a b, le a b = true ∨ le b a = true)
    (htrans : ∀ a b c, le a b = true → le b c = true → le a c = true)
    (a : α) (l : List α) (h : l.Pairwise (fun x y => le x y = true)) :
    (insertLE le a l).Pairwise (fun x y => le x y = true) := by
  induction l with
  | nil => simp [insertLE]
  | cons b l ih =>
    rcases List.pairwise_cons.mp h with ⟨hb, hl⟩
    by_cases hab : le a b
    · simp only [insertLE, hab, if_true, ite_true]
      refine List.pairwise_cons.mpr ⟨?_, h⟩
      intro y hy
      rcases List.mem_cons.mp hy with rfl | hy
      · exact hab
      · exact htrans a b y hab (hb y hy)
    · simp only [insertLE, hab, Bool.false_eq_true, if_false, ite_false]
      refine List.pairwise_cons.mpr ⟨?_, ih hl⟩
      intro y hy
      rcases (mem_insertLE le a y l).mp hy with hEq | hy
      · rw [hEq]
        rcases htot a b with h1 | h1
        · exact absurd h1 hab
        · exact h1
      · exact hb y hy

theorem pairwise_sortLE {α : Type} {le : α → α → Bool}
    (htot : ∀ a b, le a b = true ∨ le b a = true)
    (htrans : ∀ a b c, le a b = true → le b c = true → le a c = true)
    (l : List α) : (sortLE le l).Pairwise (fun x y => le x y = true) := by
  induction l with
  | nil => simp [sortLE]
  | cons a l ih => exact pairwise_insertLE htot htrans a _ ih

theorem resourceLE_total (mode : SortBy) (a b : Resource) :
    resourceLE mode a b = true ∨ resourceLE mode b a = true := by
  cases mode <;> simp only [resourceLE, decide_eq_true_eq] <;> exact le_total _ _

theorem resourceLE_trans (mode : SortBy) (a b c : Resource)
    (h1 : resourceLE mode a b = true) (h2 : resourceLE mode b c = true) :
    resourceLE mode a c = true := by
  cases mode <;> simp only [resourceLE, decide_eq_true_eq] at h1 h2 ⊢ <;>
    first
      | exact le_trans h1 h2
      | exact le_trans h2 h1

theorem mem_getResources {db : DB} {opts : GetResourcesOptions} {r : Resource}
    (h : r ∈ getResources db opts) :
    r ∈ db.resources ∧ matchesResourceFilters opts r = true := by
  unfold getResources at h
  have h1 := List.mem_of_mem_take h
  have h2 := List.mem_of_mem_drop h1
  have h3 := (mem_sortLE _ _ _).mp h2
  exact ⟨(List.mem_filter.mp h3).1, (List.mem_filter.mp h3).2⟩

theorem containsCI_empty_pattern (s : String) : containsCI s "" = true := by
  simp only [containsCI, decide_eq_true_eq]
  exact List.nil_infix

theorem matchesResourceFilters_spec {opts : GetResourcesOptions} {r : Resource}
    (hsub : opts.subject ≠ some "") (hsem : opts.semester ≠ some "")
    (huser : opts.userId ≠ some "") (hmin : opts.minRating ≠ some 0)
    (h : matchesResourceFilters opts r = true) :
    r.isActive = true ∧
    (∀ s, opts.subject = some s → r.subject = s) ∧
    (∀ s, opts.semester = some s → r.semester = some s) ∧
    (∀ m, opts.minRating = some m → m ≤ r.averageRating) ∧
    (∀ q, opts.search = some q →
      containsCI r.title q = true ∨ ∃ d, r.description = some d ∧ containsCI d q = true) ∧
    (∀ u2, opts.userId = some u2 → r.uploadedById = u2) := by
  unfold matchesResourceFilters at h
  simp only [Bool.and_eq_true] at h
  obtain ⟨⟨⟨⟨⟨hact, hsubj⟩, hsem2⟩, hminr⟩, hsearch2⟩, huid⟩ := h
  refine ⟨by simpa using hact, ?_, ?_, ?_, ?_, ?_⟩
  · intro s hs
    rw [hs] at hsubj
    simp only [Bool.or_eq_true, beq_iff_eq] at hsubj
    rcases hsubj with hs0 | hgood
    · rw [hs0] at hs
      exact absurd hs hsub
    · exact hgood
  · intro s hs
    rw [hs] at hsem2
    simp only [Bool.or_eq_true, beq_iff_eq] at hsem2
    rcases hsem2 with hs0 | hgood
    · rw [hs0] at hs
      exact absurd hs hsem
    · cases hd : r.semester with
      | none =>
        rw [hd] at hgood
        exact absurd hgood (by simp)
      | some v =>
        rw [hd] at hgood
        simp only [beq_iff_eq] at hgood
        rw [hgood]
  · intro m hm
    rw [hm] at hminr
    simp only [Bool.or_eq_true, beq_iff_eq, decide_eq_true_eq] at hminr
    rcases hminr with h0 | hle
    · rw [h0] at hm
      exact absurd hm hmin
    · exact hle
  · intro q hq
    rw [hq] at hsearch2
    by_cases hq0 : q = ""
    · left
      rw [hq0]
      exact containsCI_empty_pattern r.title
    · simp only [Bool.or_eq_true, beq_iff_eq] at hsearch2
      rcases hsearch2 with h0 | htitle | hdesc
      · exact absurd h0 hq0
      · exact Or.inl htitle
      · cases hd : r.description with
        | none =>
          rw [hd] at hdesc
          exact absurd hdesc (by simp)
        | some d =>
          rw [hd] at hdesc
          exact Or.inr ⟨d, rfl, hdesc⟩
  · intro u2 hu2
    rw [hu2] at huid
    simp only [Bool.or_eq_true, beq_iff_eq] at huid
    rcases huid with h0 | hgood
    · rw [h0] at hu2
      exact absurd hu2 huser
    · exact hgood

/-- C3 (amended): for every state and every combination of optional filters
supplied as a nonempty string (and a nonzero minimum rating — the code treats
an empty string or zero as an absent filter, JavaScript truthiness),
`getResources` returns only resources with `isActive = true` that satisfy all
supplied filters (subject and semester exact match, inclusive minimum-rating
threshold against the stored average, case-insensitive substring search over
title or description, uploader id), sorted by the requested mode with default
newest-first, truncated to limit (default 50) after skipping offset
(default 0); when nothing matches it returns the empty list rather than an
error. -/
theorem getResources_filtered_sorted (db : DB) (opts : GetResourcesOptions)
    (hsub : opts.subject ≠ some "") (hsem : opts.semester ≠ some "")
    (huser : opts.userId ≠ some "") (hmin : opts.minRating ≠ some 0) :
    (∀ r ∈ getResources db opts,
      r.isActive = true ∧
      (∀ s, opts.subject = some s → r.subject = s) ∧
      (∀ s, opts.semester = some s → r.semester = some s) ∧
      (∀ m, opts.minRating = some m → m ≤ r.averageRating) ∧
      (∀ q, opts.search = some q →
        containsCI r.title q = true ∨
        ∃ d, r.description = some d ∧ containsCI d q = true) ∧
      (∀ u2, opts.userId = some u2 → r.uploadedById = u2)) ∧
    (getResources db opts).Pairwise
      (fun a b => resourceLE (opts.sortBy.getD SortBy.newest) a b = true) ∧
    (getResources db opts).length ≤ opts.limit.getD 50 ∧
    (db.resources.filter (matchesResourceFilters opts) = [] →
      getResources db opts = []) := by
  refine ⟨?_, ?_, ?_, ?_⟩
  · intro r hr
    exact matchesResourceFilters_spec hsub hsem huser hmin (mem_getResources hr).2
  · exact (pairwise_sortLE (resourceLE_total _) (resourceLE_trans _) _).sublist
      ((List.take_sublist _ _).trans (List.drop_sublist _ _))
  · exact List.length_take_le _ _
  · intro h
    unfold getResources
    rw [h]
    simp [sortLE]

theorem getResources_filtered_sorted_witness :
    getResources mathDB noOptions = [mkRes "r1" "u1" "Math" 3 0 0 5 true] ∧
    (∀ r ∈ getResources mathDB noOptions, r.isActive = true) :=
  ⟨by decide,
   fun r hr =>
     ((getResources_filtered_sorted mathDB noOptions (by decide) (by decide) (by decide)
         (by decide)).1 r hr).1⟩

theorem getResources_empty_subject_counterexample :
    emptySubjectOptions.subject = some "" ∧
    getResources mathDB emptySubjectOptions = [mkRes "r1" "u1" "Math" 3 0 0 5 true] ∧
    (mkRes "r1" "u1" "Math" 3 0 0 5 true).subject ≠ "" :=
  ⟨rfl, by decide, by decide⟩

theorem matchesResourceFilters_isActive {opts : GetResourcesOptions} {r : Resource}
    (h : matchesResourceFilters opts r = true) : r.isActive = true := by
  unfold matchesResourceFilters at h
  simp only [Bool.and_eq_true] at h
  simpa using h.1.1.1.1.1

/-- C4: after `deleteResource` flips a resource to inactive it appears in no
`getResources` listing, yet `getResourceWithDetails` still returns it (the
detail fetch does not filter by `isActive`); the detail fetch yields `none`
(NotFound) exactly when the id matches no resource row at all. -/
theorem soft_delete_detail_asymmetry (db : DB) (id : String) (now : Nat) :
    (∀ opts : GetResourcesOptions,
      ∀ r ∈ getResources (deleteResource db id now).1 opts, r.id ≠ id) ∧
    (∀ r, db.resources.find? (fun x => x.id == id) = some r →
      ∃ d, getResourceWithDetails (deleteResource db id now).1 id = some d ∧
        d.resource = { r with isActive := false, updatedAt := now }) ∧
    (getResourceWithDetails db id = none ↔ ∀ r ∈ db.resources, r.id ≠ id) := by
  refine ⟨?_, ?_, ?_⟩
  · intro opts r hr
    obtain ⟨hmem, hmatch⟩ := mem_getResources hr
    obtain ⟨x, hx, hfx⟩ := List.mem_map.mp hmem
    by_cases hxid : x.id = id
    · have hact := matchesResourceFilters_isActive hmatch
      rw [← hfx] at hact
      simp [hxid] at hact
    · have hbeq : (x.id == id) = false := by simp [hxid]
      rw [← hfx]
      simp only [hbeq, Bool.false_eq_true, if_false, ite_false]
      exact hxid
  · intro r hfr
    have hrid : (r.id == id) = true := by
      have hp := List.find?_some hfr
      simpa using hp
    have hpf :
        ((fun x : Resource => x.id == id) ∘ (fun x : Resource =>
          if x.id == id then { x with isActive := false, updatedAt := now } else x)) =
        (fun x : Resource => x.id == id) := by
      funext x
      by_cases hxid : x.id = id <;> simp [hxid]
    have hfind :
        (deleteResource db id now).1.resources.find? (fun x => x.id == id) =
          some (if r.id == id then { r with isActive := false, updatedAt := now } else r) := by
      show (db.resources.map _).find? _ = _
      rw [List.find?_map, hpf, hfr]
      rfl
    have hres :
        getResourceWithDetails (deleteResource db id now).1 id =
          some { resource := { r with isActive := false, updatedAt := now },
                 ratings := (deleteResource db id now).1.ratings.filter (byResourceId id),
                 averageRating := r.averageRating, ratingCount := r.ratingCount } := by
      unfold getResourceWithDetails
      rw [hfind]
      simp [hrid]
    exact ⟨_, hres, rfl⟩
  · constructor
    · intro hnone r hr
      cases hf : db.resources.find? (fun x => x.id == id) with
      | none =>
        exact fun hrid2 => (List.find?_eq_none.mp hf r hr) (by simp [hrid2])
      | some x =>
        unfold getResourceWithDetails at hnone
        rw [hf] at hnone
        exact absurd hnone (by simp)
    · intro hall
      unfold getResourceWithDetails
      have hn : db.resources.find? (fun x => x.id == id) = none :=
        List.find?_eq_none.mpr (fun r hr => by simp [hall r hr])
      rw [hn]

theorem soft_delete_detail_asymmetry_witness :
    getResources (deleteResource mathDB "r1" 9).1 noOptions = [] ∧
    (∃ d, getResourceWithDetails (deleteResource mathDB "r1" 9).1 "r1" = some d ∧
      d.resource =
        { mkRes "r1" "u1" "Math" 3 0 0 5 true with isActive := false, updatedAt := 9 }) :=
  ⟨by decide,
   (soft_delete_detail_asymmetry mathDB "r1" 9).2.1
     (mkRes "r1" "u1" "Math" 3 0 0 5 true) (by decide)⟩

/-- C5: for every resource and every acting user who is not the uploader, the
PUT and DELETE routes fail with 403 and return the database state unchanged
(every field of every resource untouched); for an unknown id they fail with
404, also without modifying any state. -/
theorem ownership_guard (db : DB) (userId id : String) (body : ResourceBodyUpdates)
    (now : Nat) :
    (db.resources.find? (fun r => r.id == id) = none →
      putResourceRoute db userId id body now = (db, 404) ∧
      deleteResourceRoute db userId id now = (db, 404)) ∧
    (∀ ex, db.resources.find? (fun r => r.id == id) = some ex →
      ex.uploadedById ≠ userId →
      putResourceRoute db userId id body now = (db, 403) ∧
      deleteResourceRoute db userId id now = (db, 403)) := by
  constructor
  · intro h
    constructor
    · simp [putResourceRoute, h]
    · simp [deleteResourceRoute, h]
  · intro ex hex hne
    have hbeq : (ex.uploadedById == userId) = false := by simp [hne]
    constructor
    · simp [putResourceRoute, hex, hbeq]
    · simp [deleteResourceRoute, hex, hbeq]

theorem ownership_guard_witness :
    putResourceRoute mathDB "u2" "r1"
        { title := some "X", description := none, subject := none, semester := none } 9 =
      (mathDB, 403) ∧
    deleteResourceRoute mathDB "u2" "zzz" 9 = (mathDB, 404) :=
  ⟨((ownership_guard mathDB "u2" "r1"
      { title := some "X", description := none, subject := none, semester := none } 9).2
      (mkRes "r1" "u1" "Math" 3 0 0 5 true) (by decide) (by decide)).1,
   ((ownership_guard mathDB "u2" "zzz"
      { title := some "X", description := none, subject := none, semester := none } 9).1
      (by decide)).2⟩

/-- C6: for an existing resource the download route answers 200, increments
exactly that resource's `downloadCount` by one and bumps its `updatedAt`,
leaving every other field, every other resource (pointwise, position by
position) and every other table unchanged; for an unknown id it answers 404
and changes nothing. -/
theorem download_accounting (db : DB) (id : String) (now : Nat) :
    (db.resources.find? (fun r => r.id == id) = none →
      downloadRoute db id now = (db, 404)) ∧
    ((db.resources.find? (fun r => r.id == id)).isSome →
      (downloadRoute db id now).2 = 200 ∧
      (downloadRoute db id now).1.users = db.users ∧
      (downloadRoute db id now).1.ratings = db.ratings ∧
      (downloadRoute db id now).1.favorites = db.favorites ∧
      ∀ i : Nat,
        (downloadRoute db id now).1.resources[i]? =
          (db.resources[i]?).map (fun r =>
            if r.id = id then { r with downloadCount := r.downloadCount + 1, updatedAt := now }
            else r)) := by
  constructor
  · intro h
    simp [downloadRoute, h]
  · intro h
    obtain ⟨ex, hex⟩ := Option.isSome_iff_exists.mp h
    have hroute : downloadRoute db id now = (incrementDownloadCount db id now, 200) := by
      simp [downloadRoute, hex]
    rw [hroute]
    refine ⟨rfl, rfl, rfl, rfl, ?_⟩
    intro i
    show (db.resources.map _)[i]? = _
    rw [List.getElem?_map]
    cases db.resources[i]? with
    | none => rfl
    | some r =>
      by_cases hr : r.id = id
      · simp [hr]
      · simp [hr]

theorem download_accounting_witness :
    downloadRoute mathDB "zzz" 9 = (mathDB, 404) ∧
    (downloadRoute mathDB "r1" 9).1.resources[0]? =
      some { mkRes "r1" "u1" "Math" 3 0 0 5 true with downloadCount := 4, updatedAt := 9 } :=
  ⟨(download_accounting mathDB "zzz" 9).1 (by decide),
   by
     have h := ((download_accounting mathDB "r1" 9).2 (by decide)).2.2.2.2 0
     rw [h]
     decide⟩

/-- C7: with zero active resources the dashboard stats are all zero, and for a
user with zero active uploads the per-user stats are all zero; the empty mean
is special-cased to 0 rather than a division failure. -/
theorem stats_zero_resources (db : DB) (userId : String) :
    (db.resources.filter (fun r => r.isActive) = [] →
      getDashboardStats db =
        { totalResources := 0, totalDownloads := 0, averageRating := 0, activeUsers := 0 }) ∧
    (db.resources.filter (fun r => r.uploadedById == userId && r.isActive) = [] →
      getUserStats db userId =
        { uploadedCount := 0, totalDownloads := 0, averageRating := 0 }) := by
  constructor
  · intro h
    unfold getDashboardStats
    rw [h]
    rfl
  · intro h
    unfold getUserStats
    rw [h]
    rfl

theorem stats_zero_resources_witness :
    getDashboardStats emptyDB =
      { totalResources := 0, totalDownloads := 0, averageRating := 0, activeUsers := 0 } ∧
    getUserStats mathDB "u9" =
      { uploadedCount := 0, totalDownloads := 0, averageRating := 0 } :=
  ⟨(stats_zero_resources emptyDB "u9").1 rfl,
   (stats_zero_resources mathDB "u9").2 (by decide)⟩

/-- C8 (code bug): the display map of `getTopContributors` calls `.toFixed`
on the string NUMERIC aggregate, so a `TypeError` is raised for the first row
processed and the method's `catch` returns `[]` — the contributor list is
always empty.  In particular for `thirdsDB`, whose single user has three
active resources, the code returns `[]` instead of that uploader's row with
count, downloads and mean that the claim (and the spec's intent) describe. -/
theorem getTopContributors_always_empty :
    (∀ db : DB, getTopContributors db = []) ∧ getTopContributors thirdsDB = [] := by
  have hall : ∀ db : DB, getTopContributors db = [] := by
    intro db
    unfold getTopContributors
    cases hfl : (sortLE contribGE (db.users.map (contributorRow db))).filter
        (fun c => decide (0 < c.resourceCount)) with
    | nil => rfl
    | cons a l => rfl
  exact ⟨hall, hall thirdsDB⟩

theorem entryRawScore_mk (r : Resource) (u : User) (g : Nat) :
    entryRawScore (mkTrendingEntry r u g) = rawTrendingScore r := rfl

/-- C9: for every timeframe (trailing 7 days, trailing 30 days, or unbounded
all), `getTrendingResources` considers only active resources created within
that window, ranks the result in descending order of the raw score
`downloadCount * 0.4 + averageRating * ratingCount * 0.6`, and reports each
returned entry's `trendingScore` as `min 100 (floor rawScore)`. -/
theorem getTrendingResources_spec (db : DB) (tf : Timeframe) (now : Nat)
    (rand : String → Nat) :
    (∀ e ∈ getTrendingResources db tf now rand, ∃ r ∈ db.resources,
      r.isActive = true ∧ trendingDateFilter tf now ≤ r.createdAt ∧
      e.id = r.id ∧ e.downloadCount = r.downloadCount ∧
      e.averageRating = r.averageRating ∧ e.ratingCount = r.ratingCount ∧
      e.trendingScore = min 100 ⌊rawTrendingScore r⌋) ∧
    (getTrendingResources db tf now rand).Pairwise
      (fun a b => entryRawScore b ≤ entryRawScore a) := by
  constructor
  · intro e he
    simp only [getTrendingResources, List.mem_map] at he
    obtain ⟨p, hp, rfl⟩ := he
    have hp1 := List.mem_of_mem_take hp
    have hp2 := (mem_sortLE _ _ _).mp hp1
    obtain ⟨r, hr, hfr⟩ := List.mem_filterMap.mp hp2
    by_cases hcond : (r.isActive && decide (trendingDateFilter tf now ≤ r.createdAt)) = true
    · rw [if_pos hcond] at hfr
      obtain ⟨u, hu, hpu⟩ := Option.map_eq_some'.mp hfr
      subst hpu
      simp only [Bool.and_eq_true, decide_eq_true_eq] at hcond
      exact ⟨r, hr, hcond.1, hcond.2, rfl, rfl, rfl, rfl, rfl⟩
    · rw [if_neg hcond] at hfr
      exact absurd hfr (by simp)
  · have htot : ∀ a b : Resource × User,
        decide (rawTrendingScore b.1 ≤ rawTrendingScore a.1) = true ∨
        decide (rawTrendingScore a.1 ≤ rawTrendingScore b.1) = true := by
      intro a b
      simp only [decide_eq_true_eq]
      exact le_total _ _
    have htrans : ∀ a b c : Resource × User,
        decide (rawTrendingScore b.1 ≤ rawTrendingScore a.1) = true →
        decide (rawTrendingScore c.1 ≤ rawTrendingScore b.1) = true →
        decide (rawTrendingScore c.1 ≤ rawTrendingScore a.1) = true := by
      intro a b c h1 h2
      simp only [decide_eq_true_eq] at h1 h2 ⊢
      exact le_trans h2 h1
    exact ((pairwise_sortLE htot htrans _).sublist (List.take_sublist _ _)).map _
      (fun a b hab => by
        show entryRawScore (mkTrendingEntry b.1 b.2 _) ≤
          entryRawScore (mkTrendingEntry a.1 a.2 _)
        rw [entryRawScore_mk, entryRawScore_mk]
        exact of_decide_eq_true hab)

theorem getTrendingResources_spec_witness :
    sampleTrendingEntry ∈ getTrendingResources mathDB Timeframe.all 100 (fun _ => 0) ∧
    (∃ r ∈ mathDB.resources,
      r.isActive = true ∧ trendingDateFilter Timeframe.all 100 ≤ r.createdAt ∧
      sampleTrendingEntry.id = r.id ∧
      sampleTrendingEntry.downloadCount = r.downloadCount ∧
      sampleTrendingEntry.averageRating = r.averageRating ∧
      sampleTrendingEntry.ratingCount = r.ratingCount ∧
      sampleTrendingEntry.trendingScore = min 100 ⌊rawTrendingScore r⌋) :=
  have hlist : getTrendingResources mathDB Timeframe.all 100 (fun _ => 0) =
      [sampleTrendingEntry] := rfl
  ⟨by rw [hlist]; exact List.mem_singleton_self _,
   (getTrendingResources_spec mathDB Timeframe.all 100 (fun _ => 0)).1
     sampleTrendingEntry (by rw [hlist]; exact List.mem_singleton_self _)⟩

/-- C10: `addFavorite`, viewed as returning an optional favorite, returns no
record exactly when a favorite with the same `(userId, resourceId)` pair
already exists — the conflicting insert is skipped, the state is unchanged and
nothing (`undefined`) is returned rather than the existing row; for every pair
not already present it appends and returns the newly inserted favorite. -/
theorem addFavorite_conflict (db : DB) (ins : InsertFavorite) (now : Nat) :
    ((addFavorite db ins now).2 = none ↔
      ∃ f ∈ db.favorites, f.userId = ins.userId ∧ f.resourceId = ins.resourceId) ∧
    ((∃ f ∈ db.favorites, f.userId = ins.userId ∧ f.resourceId = ins.resourceId) →
      addFavorite db ins now = (db, none)) ∧
    ((∀ f ∈ db.favorites, ¬(f.userId = ins.userId ∧ f.resourceId = ins.resourceId)) →
      addFavorite db ins now =
        ({ db with favorites := db.favorites ++ [mkFavorite ins now] },
         some (mkFavorite ins now))) := by
  have hany :
      (db.favorites.any (fun f =>
        f.userId == ins.userId && f.resourceId == ins.resourceId)) = true ↔
      ∃ f ∈ db.favorites, f.userId = ins.userId ∧ f.resourceId = ins.resourceId := by
    simp only [List.any_eq_true, Bool.and_eq_true, beq_iff_eq]
  refine ⟨⟨?_, ?_⟩, ?_, ?_⟩
  · intro h2
    by_cases h : (db.favorites.any (fun f =>
        f.userId == ins.userId && f.resourceId == ins.resourceId)) = true
    · exact hany.mp h
    · exfalso
      unfold addFavorite at h2
      rw [if_neg h] at h2
      exact absurd h2 (by simp)
  · intro hex
    unfold addFavorite
    rw [if_pos (hany.mpr hex)]
  · intro hex
    unfold addFavorite
    rw [if_pos (hany.mpr hex)]
  · intro hall
    have hfalse : ¬ (db.favorites.any (fun f =>
        f.userId == ins.userId && f.resourceId == ins.resourceId) = true) := by
      intro hh
      obtain ⟨f, hf, hp⟩ := hany.mp hh
      exact hall f hf ⟨hp.1, hp.2⟩
    unfold addFavorite
    rw [if_neg hfalse]

theorem addFavorite_conflict_witness :
    addFavorite favDB { userId := "u1", resourceId := "r1" } 9 = (favDB, none) ∧
    (addFavorite favDB { userId := "u2", resourceId := "r1" } 9).2 =
      some (mkFavorite { userId := "u2", resourceId := "r1" } 9) :=
  ⟨(addFavorite_conflict favDB { userId := "u1", resourceId := "r1" } 9).2.1
     ⟨mkFavorite { userId := "u1", resourceId := "r1" } 3, by decide, rfl, rfl⟩,
   by
     rw [(addFavorite_conflict favDB { userId := "u2", resourceId := "r1" } 9).2.2
       (by decide)]⟩

theorem updateResourceRatingStats_ratings (db : DB) (rid : String) (now : Nat) :
    (updateResourceRatingStats db rid now).ratings = db.ratings := rfl

theorem ratingPair_resourceId {rid uid : String} {rt : Rating}
    (h : ratingPair rid uid rt = true) : rt.resourceId = rid := by
  simp only [ratingPair, Bool.and_eq_true, beq_iff_eq] at h
  exact h.1

theorem byResourceId_eq_false {rid : String} {rt : Rating} (h : rt.resourceId ≠ rid) :
    byResourceId rid rt = false := by
  simp only [byResourceId, beq_eq_false_iff_ne, ne_eq]
  exact h

theorem ratingStatsOf_congr {l1 l2 : List Rating} {rid : String}
    (h : l1.filter (byResourceId rid) = l2.filter (byResourceId rid)) :
    ratingStatsOf l1 rid = ratingStatsOf l2 rid := by
  unfold ratingStatsOf
  rw [h]

theorem filter_byResourceId_map_pair (l : List Rating) {ridC uidC : String} (u : Rating)
    (hu : u.resourceId = ridC) {rid2 : String} (hne : rid2 ≠ ridC) :
    (l.map (fun rt => if ratingPair ridC uidC rt then u else rt)).filter
        (byResourceId rid2) =
      l.filter (byResourceId rid2) := by
  have hfu : byResourceId rid2 u = false :=
    byResourceId_eq_false (by rw [hu]; exact fun hh => hne hh.symm)
  induction l with
  | nil => rfl
  | cons a l ih =>
    by_cases hpa : ratingPair ridC uidC a
    · have hfa : byResourceId rid2 a = false :=
        byResourceId_eq_false (by rw [ratingPair_resourceId hpa]; exact fun hh => hne hh.symm)
      simp [List.filter_cons, hpa, hfa, hfu, ih]
    · simp only [List.map_cons, List.filter_cons, hpa, if_false, Bool.false_eq_true, ite_false]
      rw [ih]

theorem filter_byResourceId_append (l : List Rating) (a : Rating) {ridC rid2 : String}
    (ha : a.resourceId = ridC) (hne : rid2 ≠ ridC) :
    (l ++ [a]).filter (byResourceId rid2) = l.filter (byResourceId rid2) := by
  have hfa : byResourceId rid2 a = false :=
    byResourceId_eq_false (by rw [ha]; exact fun hh => hne hh.symm)
  simp [List.filter_append, hfa]

theorem filter_byResourceId_filter_not_pair (l : List Rating) {ridC uidC rid2 : String}
    (hne : rid2 ≠ ridC) :
    (l.filter (fun rt => !(ratingPair ridC uidC rt))).filter (byResourceId rid2) =
      l.filter (byResourceId rid2) := by
  induction l with
  | nil => rfl
  | cons a l ih =>
    by_cases hpa : ratingPair ridC uidC a
    · have hfa : byResourceId rid2 a = false :=
        byResourceId_eq_false (by rw [ratingPair_resourceId hpa]; exact fun hh => hne hh.symm)
      simp [List.filter_cons, hpa, hfa, ih]
    · simp [List.filter_cons, hpa, ih]

theorem statsUpdate_consistent (db : DB) (l2 : List Rating) (rid : String) (now : Nat)
    (h : ratingAggConsistent db)
    (hsame : ∀ rid2, rid2 ≠ rid →
      l2.filter (byResourceId rid2) = db.ratings.filter (byResourceId rid2)) :
    ratingAggConsistent (updateResourceRatingStats { db with ratings := l2 } rid now) := by
  intro r2 hr2
  simp only [updateResourceRatingStats, List.mem_map] at hr2
  obtain ⟨r, hr, rfl⟩ := hr2
  by_cases hid : r.id = rid
  · simp only [updateResourceRatingStats_ratings]
    simp [hid]
  · have hbeq : (r.id == rid) = false := by
      simp only [beq_eq_false_iff_ne, ne_eq]; exact hid
    simp only [updateResourceRatingStats_ratings, hbeq, Bool.false_eq_true, if_false, ite_false]
    rw [ratingStatsOf_congr (hsame r.id hid)]
    exact h r hr

theorem createOrUpdateRating_consistent (db : DB) (ir : InsertRating) (now : Nat)
    (h : ratingAggConsistent db) :
    ratingAggConsistent (createOrUpdateRating db ir now).1 := by
  unfold createOrUpdateRating
  cases hfind : db.ratings.find? (ratingPair ir.resourceId ir.userId) with
  | some old =>
    have hold : ratingPair ir.resourceId ir.userId old = true := List.find?_some hfind
    refine statsUpdate_consistent db _ ir.resourceId now h
      (fun rid2 hne => filter_byResourceId_map_pair db.ratings _ ?_ hne)
    exact ratingPair_resourceId hold
  | none =>
    exact statsUpdate_consistent db _ ir.resourceId now h
      (fun rid2 hne => filter_byResourceId_append db.ratings _ rfl hne)

theorem deleteRating_consistent (db : DB) (rid uid : String) (now : Nat)
    (h : ratingAggConsistent db) :
    ratingAggConsistent (deleteRating db rid uid now).1 := by
  unfold deleteRating
  by_cases hlt :
      (db.ratings.filter (fun rt => !(ratingPair rid uid rt))).length < db.ratings.length
  · simp only [hlt, if_true, ite_true]
    exact statsUpdate_consistent db _ rid now h
      (fun rid2 hne => filter_byResourceId_filter_not_pair db.ratings hne)
  · simp only [hlt, if_false, ite_false]
    exact h

theorem applyRatingOps_consistent (ops : List RatingOp) :
    ∀ db : DB, ratingAggConsistent db → ratingAggConsistent (applyRatingOps db ops) := by
  induction ops with
  | nil => exact fun db h => h
  | cons op ops ih =>
    intro db h
    cases op with
    | upsert ir now => exact ih _ (createOrUpdateRating_consistent db ir now h)
    | remove rid uid now => exact ih _ (deleteRating_consistent db rid uid now h)

theorem createResource_consistent (db : DB) (ir : InsertResource) (newId : String)
    (now : Nat) (h : ratingAggConsistent db)
    (hfresh : ∀ rt ∈ db.ratings, rt.resourceId ≠ newId) :
    ratingAggConsistent (createResource db ir newId now).1 := by
  intro r hr
  simp only [createResource, List.mem_append, List.mem_singleton] at hr
  rcases hr with hr | rfl
  · exact h r hr
  · have hfil : db.ratings.filter (byResourceId newId) = [] :=
      List.filter_eq_nil_iff.mpr (fun rt hrt => by
        simp only [byResourceId, beq_iff_eq]
        exact hfresh rt hrt)
    constructor
    · show (mkResource ir newId now).averageRating = _
      simp [mkResource, ratingStatsOf, pgRound2, createResource, hfil]
    · show (mkResource ir newId now).ratingCount = _
      simp [mkResource, ratingStatsOf, createResource, hfil]

/-- C1 (amended): after every `createOrUpdateRating` and every `deleteRating`,
each resource's stored `averageRating` equals the arithmetic mean of the
`ratings` rows currently associated with it quantized to the two-decimal scale
of the `decimal(3,2)` column (0 when none exist) and its stored `ratingCount`
equals their exact count, for every sequence of rating upserts with scores in
the 1–5 range the schema documents and deletes, starting from a freshly
created resource. -/
theorem rating_aggregate_invariant (db : DB) (ir : InsertResource) (newId : String)
    (now : Nat) (ops : List RatingOp) (hinv : ratingAggConsistent db)
    (hfresh : ∀ rt ∈ db.ratings, rt.resourceId ≠ newId)
    (_hscores : ∀ op ∈ ops, op.validScore = true) :
    ratingAggConsistent (applyRatingOps (createResource db ir newId now).1 ops) :=
  applyRatingOps_consistent ops _ (createResource_consistent db ir newId now hinv hfresh)

/-- C1 counterexample to the exact-mean reading: rating a fresh resource 1, 1
and 2 from three users stores 1.33 on the resource while the arithmetic mean
of its ratings is 4/3 — the `decimal(3,2)` column rounds the stored mean. -/
theorem rating_aggregate_exact_mean_counterexample :
    (thirdsFinalDB.resources.map (fun r => r.averageRating) = [(133 : Rat) / 100]) ∧
    ((ratingStatsOf thirdsFinalDB.ratings "r1").1 = 4 / 3) ∧
    (133 / 100 : Rat) ≠ 4 / 3 := by
  have hmap : thirdsFinalDB.resources.map (fun r => r.averageRating) =
      [pgRound2 ((ratingStatsOf thirdsFinalDB.ratings "r1").1)] := rfl
  have hmean : (ratingStatsOf thirdsFinalDB.ratings "r1").1 =
      (((1 : Int) : Rat) + (((1 : Int) : Rat) + (((2 : Int) : Rat) + 0))) /
        ((3 : Nat) : Rat) := rfl
  have h43 : (((1 : Int) : Rat) + (((1 : Int) : Rat) + (((2 : Int) : Rat) + 0))) /
      ((3 : Nat) : Rat) = 4 / 3 := by
    push_cast
    norm_num
  have hround : round ((4 : Rat) / 3 * 100) = 133 := by
    norm_num [round_eq]
  have hpg : pgRound2 ((4 : Rat) / 3) = 133 / 100 := by
    unfold pgRound2
    rw [if_neg (by norm_num)]
    rw [hround]
    norm_num
  refine ⟨?_, ?_, by norm_num⟩
  · rw [hmap, hmean, h43, hpg]
  · rw [hmean, h43]

theorem find?_append_of_none {α : Type} {p : α → Bool} {l1 : List α}
    (h : l1.find? p = none) (l2 : List α) : (l1 ++ l2).find? p = l2.find? p := by
  induction l1 with
  | nil => rfl
  | cons a l ih =>
    cases hpa : p a with
    | true =>
      rw [List.find?_cons_of_pos _ hpa] at h
      exact absurd h (by simp)
    | false =>
      rw [List.find?_cons_of_neg _ (by simp [hpa])] at h
      rw [List.cons_append, List.find?_cons_of_neg _ (by simp [hpa])]
      exact ih h

theorem filter_pair_map_overwrite {rid uid : String} {u a : Rating}
    (hu : ratingPair rid uid u = true) (ha : ratingPair rid uid a = true) :
    ∀ l : List Rating, (∀ rt ∈ l, ratingPair rid uid rt = false) →
      ((l ++ [a]).map (fun rt => if ratingPair rid uid rt then u else rt)).filter
          (ratingPair rid uid) =
        [u] := by
  intro l
  induction l with
  | nil =>
    intro _
    simp [ha, hu, List.filter_cons]
  | cons b l ih =>
    intro hall
    have hb : ratingPair rid uid b = false := hall b (List.mem_cons_self b l)
    simp only [List.cons_append, List.map_cons, List.filter_cons, hb, Bool.false_eq_true,
      if_false, ite_false]
    exact ih (fun rt hrt => hall rt (List.mem_cons_of_mem b hrt))

theorem createOrUpdateRating_ratings (db : DB) (ir : InsertRating) (now : Nat) :
    (createOrUpdateRating db ir now).1.ratings =
      match db.ratings.find? (ratingPair ir.resourceId ir.userId) with
      | some old =>
          db.ratings.map (fun rt =>
            if ratingPair ir.resourceId ir.userId rt then overwriteRating old ir now else rt)
      | none => db.ratings ++ [mkRating ir now] := by
  unfold createOrUpdateRating
  cases db.ratings.find? (ratingPair ir.resourceId ir.userId) <;> rfl

/-- C2: upserting twice for the same `(resourceId, userId)` pair leaves exactly
one `ratings` row for that pair; the second call overwrites the score, review
text and updated timestamp in place, keeps the creation timestamp and identity
of the row inserted by the first call, and the table grows by exactly one row
over the two calls. -/
theorem createOrUpdateRating_upsert_once (db : DB) (ir1 ir2 : InsertRating) (t1 t2 : Nat)
    (hrid : ir2.resourceId = ir1.resourceId) (huid : ir2.userId = ir1.userId)
    (hnone : db.ratings.filter (ratingPair ir1.resourceId ir1.userId) = []) :
    ((createOrUpdateRating (createOrUpdateRating db ir1 t1).1 ir2 t2).1).ratings.filter
        (ratingPair ir1.resourceId ir1.userId) =
      [{ resourceId := ir1.resourceId, userId := ir1.userId, rating := ir2.rating,
         review := ir2.review, createdAt := t1, updatedAt := t2 }] ∧
    ((createOrUpdateRating (createOrUpdateRating db ir1 t1).1 ir2 t2).1).ratings.length =
      db.ratings.length + 1 := by
  have hall : ∀ rt ∈ db.ratings, ratingPair ir1.resourceId ir1.userId rt = false := by
    intro rt hrt
    have hnp := List.filter_eq_nil_iff.mp hnone rt hrt
    simpa using hnp
  have hfind1 : db.ratings.find? (ratingPair ir1.resourceId ir1.userId) = none :=
    List.find?_eq_none.mpr (fun rt hrt => by simp [hall rt hrt])
  have hdb1 : (createOrUpdateRating db ir1 t1).1.ratings = db.ratings ++ [mkRating ir1 t1] := by
    rw [createOrUpdateRating_ratings, hfind1]
  have hpairmk : ratingPair ir1.resourceId ir1.userId (mkRating ir1 t1) = true := by
    simp [ratingPair, mkRating]
  have hfind2 :
      (createOrUpdateRating db ir1 t1).1.ratings.find?
          (ratingPair ir2.resourceId ir2.userId) =
        some (mkRating ir1 t1) := by
    rw [hdb1, hrid, huid, find?_append_of_none hfind1]
    exact List.find?_cons_of_pos _ hpairmk
  have hdb2 :
      ((createOrUpdateRating (createOrUpdateRating db ir1 t1).1 ir2 t2).1).ratings =
        ((db.ratings ++ [mkRating ir1 t1]).map (fun rt =>
          if ratingPair ir2.resourceId ir2.userId rt then
            overwriteRating (mkRating ir1 t1) ir2 t2
          else rt)) := by
    rw [createOrUpdateRating_ratings, hfind2, hdb1]
  have hupd : overwriteRating (mkRating ir1 t1) ir2 t2 =
      { resourceId := ir1.resourceId, userId := ir1.userId, rating := ir2.rating,
        review := ir2.review, createdAt := t1, updatedAt := t2 } := rfl
  constructor
  · rw [hdb2, hrid, huid]
    rw [← hupd]
    refine filter_pair_map_overwrite ?_ hpairmk db.ratings hall
    simp [overwriteRating, ratingPair, mkRating]
  · rw [hdb2]
    simp

theorem createOrUpdateRating_upsert_once_witness :
    (({ resourceId := "r1", userId := "u2", rating := 5, review := some "good" } :
        InsertRating).resourceId = "r1") ∧
    (emptyDB.ratings.filter (ratingPair "r1" "u2") = []) ∧
    ((createOrUpdateRating
        (createOrUpdateRating emptyDB
          { resourceId := "r1", userId := "u2", rating := 3, review := none } 7).1
        { resourceId := "r1", userId := "u2", rating := 5, review := some "good" } 9).1).ratings.filter
        (ratingPair "r1" "u2") =
      [{ resourceId := "r1", userId := "u2", rating := 5, review := some "good",
         createdAt := 7, updatedAt := 9 }] :=
  ⟨rfl, rfl,
   (createOrUpdateRating_upsert_once emptyDB
      { resourceId := "r1", userId := "u2", rating := 3, review := none }
      { resourceId := "r1", userId := "u2", rating := 5, review := some "good" }
      7 9 rfl rfl rfl).1⟩

theorem rating_aggregate_invariant_witness :
    ratingAggConsistent emptyDB ∧
    (∀ rt ∈ emptyDB.ratings, rt.resourceId ≠ "r1") ∧
    (∀ op ∈ sampleRatingOps, op.validScore = true) ∧
    ratingAggConsistent
      (applyRatingOps (createResource emptyDB sampleInsertResource "r1" 5).1 sampleRatingOps) :=
  ⟨fun r hr => absurd hr (List.not_mem_nil r),
   fun rt hrt => absurd hrt (List.not_mem_nil rt),
   by decide,
   rating_aggregate_invariant emptyDB sampleInsertResource "r1" 5 sampleRatingOps
     (fun r hr => absurd hr (List.not_mem_nil r))
     (fun rt hrt => absurd hrt (List.not_mem_nil rt))
     (by decide)⟩

end ResourceHub
